import Mathlib

/-!
Shallow embedding of the UK property-price aggregation program (`src/main.rs`).

Conventions of the embedding:
* Rust `i32` prices are modelled as `Int`; where the source performs `i32`
  arithmetic that can overflow (the addition of the two middle prices in
  `find_median`) the two's-complement wrap is modelled explicitly (`wrap32`,
  release-mode semantics).
* The lossy `as f32` casts of `find_median` are modelled exactly: `roundF32`
  rounds an `i32` value to the nearest binary32-representable integer (24-bit
  significand, ties to even).  The subsequent division of that value by
  `2f32` is exact in binary32 (the exponent just decreases by one, far from
  the subnormal range), so it is modelled by exact division in `ℚ`.
* Code that can panic (vector indexing on an out-of-range index, `entries[0]`
  on an empty vector) is modelled with `Option`: `none` is the panic.
* Rust `HashMap`s are modelled as association lists; along the driver loop the
  accumulator `postcode_year_entries` is represented by the list of records
  routed into it since the last reset, and the nested map is recovered from
  that list with `mapOf` (folding the code's `route` insertion in order).
* JSON text serialisation (`serde_json::to_writer`) is modelled by building a
  `Json` value for the serialised Rust value and rendering it; the byte writes
  `"["`, `","`, `"]"` of `main` are modelled verbatim as string pieces.
-/

namespace HomeUK

inductive PropertyType where
  | Detached
  | SemiDetached
  | Terraced
  | Flat
  | Other
  deriving DecidableEq, Repr

inductive PropertyAge where
  | New
  | Old
  deriving DecidableEq, Repr

inductive DurationOfTransfer where
  | Freehold
  | Leasehold
  deriving DecidableEq, Repr

/-- `chrono::NaiveDate`, reduced to the fields the program reads (`year` for
routing, the full date for the sort order). -/
structure NaiveDate where
  year : Int
  month : Nat
  day : Nat
  deriving DecidableEq, Repr

/-- `struct Entry` of the source. -/
structure Entry where
  price : Int
  date : NaiveDate
  address : String
  postcode : String
  property_type : PropertyType
  property_age : PropertyAge
  duration : DurationOfTransfer
  deriving DecidableEq, Repr

/-- `struct Property` of the source. -/
structure Property where
  address : String
  price : Int
  deriving DecidableEq, Repr

/-- `struct PriceBucket` of the source; `range: Range<i32>` is the pair
(start, end).  The `median: f32` value is carried in `ℚ`: every binary32
value the program can store here is an integer or half-integer well inside
the range `ℚ` represents exactly, and the rounding of the source's `i32`
addition and `as f32` casts is applied by `find_median` before the value is
stored. -/
structure PriceBucket where
  count : Nat
  median : ℚ
  range : Int × Int
  properties : List Property
  deriving DecidableEq, Repr

/-- `prices.sort_unstable()`: sorting the price vector ascending. -/
def sortPrices (prices : List Int) : List Int :=
  List.insertionSort (fun a b => a ≤ b) prices

/-- Two's-complement wrap of an unbounded integer back into `i32`: the
release-mode semantics of the source's `prices[middle - 1] + prices[middle]`
when the `i32` sum overflows. -/
def wrap32 (x : Int) : Int :=
  (x + 2147483648) % 4294967296 - 2147483648

/-- The exact value of `x as f32` for an `i32` value `x`: round to the
nearest value representable with a 24-bit significand, ties to even.
Magnitudes up to 2^24 are exact; above that the representable values are
spaced `2 ^ e` apart where `2^23 ≤ |x| / 2 ^ e < 2^24` (for `|x| ≤ 2^31`
the exponent `e` is between 1 and 8). -/
def roundF32 (x : Int) : Int :=
  let n := x.natAbs
  if n ≤ 16777216 then x
  else
    let e : Nat :=
      if n < 33554432 then 1
      else if n < 67108864 then 2
      else if n < 134217728 then 3
      else if n < 268435456 then 4
      else if n < 536870912 then 5
      else if n < 1073741824 then 6
      else if n < 2147483648 then 7
      else 8
    let q := n / 2 ^ e
    let r := n % 2 ^ e
    let half := 2 ^ (e - 1)
    let m := if half < r then q + 1
      else if r < half then q
      else if q % 2 = 0 then q else q + 1
    (if x < 0 then -1 else 1) * ((m : Int) * 2 ^ e)

/-- `fn find_median(prices: &Vec<i32>) -> f32` of the source.  The index
accesses `prices[middle - 1]`, `prices[middle]`, `prices[len / 2]` panic when
out of range; the panic is the `none` result.  The even branch performs the
`i32` addition (wrapping on overflow), casts the sum to `f32` (rounding to
the nearest representable value) and divides by `2f32` (exact, see above);
the odd branch casts the single middle price to `f32`. -/
def find_median (prices : List Int) : Option ℚ :=
  let len := prices.length
  if len ≥ 2 ∧ len % 2 = 0 then
    match prices.get? (len / 2 - 1), prices.get? (len / 2) with
    | some a, some b => some ((roundF32 (wrap32 (a + b)) : ℚ) / 2)
    | _, _ => none
  else
    (prices.get? (len / 2)).map fun a => (roundF32 a : ℚ)

/-- `fn to_price_bucket(properties: &mut Vec<Property>) -> PriceBucket` of the
source: collect the prices, sort that private copy, take its length, median,
min/max (`unwrap_or(&0)`), and filter the original samples into the
`300_000 ..= 800_000` display band.  A panic inside `find_median` is `none`. -/
def to_price_bucket (properties : List Property) : Option PriceBucket :=
  let prices := sortPrices (properties.map Property.price)
  (find_median prices).map fun m =>
    { count := prices.length
      median := m
      range := ((prices.min?).getD 0, (prices.max?).getD 0)
      properties := properties.filter fun p =>
        decide (p.price ≥ 300000) && decide (p.price ≤ 800000) }

/-- The state-passing translation of `to_price_bucket`'s `&mut Vec<Property>`
parameter: the second component is the vector the caller's reference points to
after the call.  The body reads `properties` twice (`iter().map`,
`iter().filter().cloned()`) and never writes through the reference; the only
sort is applied to the local copy `prices`. -/
def to_price_bucket_mut (properties : List Property) :
    Option PriceBucket × List Property :=
  let prices := sortPrices (properties.map Property.price)
  ((find_median prices).map fun m =>
    { count := prices.length
      median := m
      range := ((prices.min?).getD 0, (prices.max?).getD 0)
      properties := properties.filter fun p =>
        decide (p.price ≥ 300000) && decide (p.price ≤ 800000) },
   properties)

/-- Modelled from the spec: the standard statistical median of an already
sorted price list — mean of the two middle elements at indices `n/2 - 1` and
`n/2` when the count is even, the element at index `n/2` when odd. -/
def specMedian (sorted : List Int) : ℚ :=
  let n := sorted.length
  if n % 2 = 0 ∧ n ≥ 2 then
    (((sorted.getD (n / 2 - 1) 0 : Int) : ℚ) + ((sorted.getD (n / 2) 0 : Int) : ℚ)) / 2
  else
    ((sorted.getD (n / 2) 0 : Int) : ℚ)

/-- `struct YearEntry` of the source: the per-postcode accumulator value,
a nested map (property type → property age → sample list) plus the year the
entry was created for. -/
structure YearEntry where
  properties : List (PropertyType × List (PropertyAge × List Property))
  year : Int
  deriving DecidableEq, Repr

/-- The sample built from a record when it is routed
(`Property { address: entry.address.clone(), price: entry.price }`). -/
def toProperty (e : Entry) : Property :=
  { address := e.address, price := e.price }

/-- `HashMap::entry(property_age).or_insert(vec![]).push(p)` on the inner
age map, as an association-list update. -/
def pushAge (pa : PropertyAge) (p : Property) :
    List (PropertyAge × List Property) → List (PropertyAge × List Property)
  | [] => [(pa, [p])]
  | (a, ps) :: rest =>
    if a = pa then (a, ps ++ [p]) :: rest else (a, ps) :: pushAge pa p rest

/-- `HashMap::entry(property_type).or_insert(HashMap::new())` followed by the
age-level insertion, on the middle map. -/
def pushType (pt : PropertyType) (pa : PropertyAge) (p : Property) :
    List (PropertyType × List (PropertyAge × List Property)) →
      List (PropertyType × List (PropertyAge × List Property))
  | [] => [(pt, pushAge pa p [])]
  | (t, m) :: rest =>
    if t = pt then (t, pushAge pa p m) :: rest else (t, m) :: pushType pt pa p rest

/-- Routing one record into `postcode_year_entries` (source lines 244-259):
`entry(postcode).or_insert(YearEntry { properties: HashMap::new(), year })`
followed by the nested insertion and the push of the sample. -/
def route (e : Entry) : List (String × YearEntry) → List (String × YearEntry)
  | [] => [(e.postcode,
      { properties := pushType e.property_type e.property_age (toProperty e) []
        year := e.date.year })]
  | (pc, ye) :: rest =>
    if pc = e.postcode then
      (pc, { properties := pushType e.property_type e.property_age (toProperty e) ye.properties
             year := ye.year }) :: rest
    else
      (pc, ye) :: route e rest

/-- The accumulator map reconstructed from the records routed into it (in
routing order) since the last reset. -/
def mapOf (es : List Entry) : List (String × YearEntry) :=
  es.foldl (fun m e => route e m) []

/-- Everything the `while let Some(entry) = it.next()` loop of `main`
produces: the flushes (pairs of the `year` variable and the accumulator
contents at flush time, in emission order), the intermediate accumulator
states after each routed record (for the accumulator invariant), and the
accumulator and `year` left over when the loop exits (consumed by the raw
`serde_json::to_writer(&out_file, &postcode_year_entries)` on line 261). -/
structure DriverResult where
  flushes : List (Int × List Entry)
  trace : List (Int × List Entry)
  finalAcc : List Entry
  finalYear : Int
  deriving DecidableEq, Repr

/-- The aggregation loop of `main` (source lines 218-260).  For each record:
if its year differs from `year` or it is the last record (`it.peek()` is
`None`), flush the accumulator for `year`, set `year` to the record's year and
reset the accumulator; then route the record into the accumulator. -/
def driverLoop (year : Int) (acc : List Entry) : List Entry → DriverResult
  | [] => { flushes := [], trace := [], finalAcc := acc, finalYear := year }
  | e :: rest =>
    if e.date.year ≠ year ∨ rest = [] then
      let r := driverLoop e.date.year [e] rest
      { flushes := (year, acc) :: r.flushes
        trace := (e.date.year, [e]) :: r.trace
        finalAcc := r.finalAcc
        finalYear := r.finalYear }
    else
      let r := driverLoop year (acc ++ [e]) rest
      { flushes := r.flushes
        trace := (year, acc ++ [e]) :: r.trace
        finalAcc := r.finalAcc
        finalYear := r.finalYear }

/-- The Aggregation Driver on a record stream: `let mut year =
entries[0].date.year()` (a panic — `none` — on an empty stream) followed by
the loop over all entries. -/
def aggregate : List Entry → Option DriverResult
  | [] => none
  | e :: rest => some (driverLoop e.date.year [] (e :: rest))

/-- `struct ProcessedYearEntry` of the source. -/
structure ProcessedYearEntry where
  year : Int
  buckets : List (PropertyType × List (PropertyAge × PriceBucket))
  deriving DecidableEq, Repr

/-- `struct ProcessedYearEntries` of the source (one emitted YearlyReport). -/
structure ProcessedYearEntries where
  year : Int
  postcodes : List (String × List ProcessedYearEntry)
  deriving DecidableEq, Repr

/-- `List.mapM` over `Option`, written recursively: `none` as soon as one
element fails (one call panics). -/
def mapOpt (f : α → Option β) : List α → Option (List β)
  | [] => some []
  | a :: rest =>
    match f a, mapOpt f rest with
    | some b, some bs => some (b :: bs)
    | _, _ => none

/-- `fn process_year_entry(entry: &mut YearEntry) -> ProcessedYearEntry` of
the source: one `to_price_bucket` per (property type, property age) leaf. -/
def process_year_entry (ye : YearEntry) : Option ProcessedYearEntry :=
  (mapOpt (fun t =>
      (mapOpt (fun a => (to_price_bucket a.2).map fun b => (a.1, b)) t.2).map
        fun bs => (t.1, bs))
    ye.properties).map fun bs => { year := ye.year, buckets := bs }

/-- One flush body (source lines 221-237): process every postcode's
`YearEntry` (each postcode collects a one-element vector of processed
entries) and tag the result with the flushed `year`. -/
def processFlush (year : Int) (acc : List Entry) : Option ProcessedYearEntries :=
  (mapOpt (fun p => (process_year_entry p.2).map fun pe => (p.1, [pe]))
    (mapOf acc)).map fun ps => { year := year, postcodes := ps }

/-- All YearlyReports the program serialises, in emission order. -/
def emittedReports (es : List Entry) : Option (List ProcessedYearEntries) :=
  (aggregate es).bind fun r => mapOpt (fun p => processFlush p.1 p.2) r.flushes

/-- JSON value graphs handed to the (external) Serializer. -/
inductive Json where
  | num (n : Int)
  | rat (q : ℚ)
  | str (s : String)
  | arr (elems : List Json)
  | obj (fields : List (String × Json))
  deriving Repr

/-- Comma-separated concatenation: the separator appears strictly between
elements, never after the last one. -/
def commaSep : List String → String
  | [] => ""
  | [s] => s
  | s :: rest => s ++ "," ++ commaSep rest

/-- JSON text rendering for the Serializer model. -/
def renderJson : Json → String
  | .num n => toString n
  | .rat q => toString q
  | .str s => "\x22" ++ s ++ "\x22"
  | .arr elems => "[" ++ commaSep (elems.attach.map fun e => renderJson e.1) ++ "]"
  | .obj fields =>
      "\x7b" ++
        commaSep (fields.attach.map fun f => "\x22" ++ f.1.1 ++ "\x22:" ++ renderJson f.1.2) ++
      "\x7d"
termination_by j => sizeOf j
decreasing_by
  · have h := List.sizeOf_lt_of_mem e.2
    simp only [Json.arr.sizeOf_spec]
    omega
  · have h := List.sizeOf_lt_of_mem f.2
    obtain ⟨⟨s, j⟩, hf⟩ := f
    simp only [Json.obj.sizeOf_spec]
    simp only [Prod.mk.sizeOf_spec] at h
    omega

/-- serde serialisation of `PriceBucket` (`Range<i32>` serialises as
`{start, end}`). -/
def bucketJson (b : PriceBucket) : Json :=
  .obj [("count", .num b.count), ("median", .rat b.median),
        ("range", .obj [("start", .num b.range.1), ("end", .num b.range.2)]),
        ("properties", .arr (b.properties.map fun p =>
          .obj [("address", .str p.address), ("price", .num p.price)]))]

/-- serde serialisation of `ProcessedYearEntry`. -/
def processedYearEntryJson (pe : ProcessedYearEntry) : Json :=
  .obj [("year", .num pe.year),
        ("buckets", .obj (pe.buckets.map fun t =>
          (toString (repr t.1), .obj (t.2.map fun a =>
            (toString (repr a.1), bucketJson a.2)))))]

/-- serde serialisation of `ProcessedYearEntries` — one yearly element of the
output array. -/
def reportJson (r : ProcessedYearEntries) : Json :=
  .obj [("year", .num r.year),
        ("postcodes", .obj (r.postcodes.map fun p =>
          (p.1, .arr (p.2.map processedYearEntryJson))))]

/-- serde serialisation of the raw `HashMap<String, YearEntry>` written on
source line 261: `YearEntry.properties` carries `#[serde(skip_serializing)]`,
so each postcode serialises to the object holding only its `year`. -/
def rawDumpJson (m : List (String × YearEntry)) : Json :=
  .obj (m.map fun p => (p.1, .obj [("year", .num p.2.year)]))

/-- The JSON elements that end up inside the top-level output array, in write
order: one per flush, then the raw accumulator dump of line 261. -/
def outputElems (es : List Entry) : Option (List Json) :=
  (aggregate es).bind fun r =>
    (mapOpt (fun p => processFlush p.1 p.2) r.flushes).map fun reps =>
      reps.map reportJson ++ [rawDumpJson (mapOf r.finalAcc)]

/-- The per-flush writes of the loop: each flushed report is serialised and
followed by one `","` write (source lines 231-238). -/
def flushWrites : List ProcessedYearEntries → String
  | [] => ""
  | rep :: rest => renderJson (reportJson rep) ++ "," ++ flushWrites rest

/-- The byte stream `main` writes to `stats.json`, modelled write by write:
`"["`, then for every flush the serialised report followed by `","`, then the
serialised raw accumulator map, then `"]"`. -/
def outputString (es : List Entry) : Option String :=
  (aggregate es).bind fun r =>
    (mapOpt (fun p => processFlush p.1 p.2) r.flushes).map fun reps =>
      "[" ++ flushWrites reps ++ renderJson (rawDumpJson (mapOf r.finalAcc)) ++ "]"

/-- Shape test for an emitted yearly element: an object carrying both a
`year` and a `postcodes` field. -/
def isYearlyObj : Json → Bool
  | .obj fields =>
      (fields.any fun f => f.1 = "year") && (fields.any fun f => f.1 = "postcodes")
  | _ => false

/-- Address composition in the reader loop of `main` (source lines 174-185):
PAON and SAON are each appended with a trailing `", "` only when non-empty,
then street and city are appended unconditionally as `street ++ ", " ++ city`. -/
def composeAddress (paon saon street city : String) : String :=
  let a1 := if paon ≠ "" then paon ++ ", " else ""
  let a2 := if saon ≠ "" then a1 ++ saon ++ ", " else a1
  a2 ++ street ++ ", " ++ city

/-- Modelled from the spec: segments joined with `", "`. -/
def joinComma : List String → String
  | [] => ""
  | [s] => s
  | s :: rest => s ++ ", " ++ joinComma rest

/-- Modelled from the spec: the PAON, SAON, street and city fields joined
with `", "`, every empty segment skipped. -/
def specAddress (paon saon street city : String) : String :=
  joinComma ([paon, saon, street, city].filter fun s => decide (s ≠ ""))

/-- The `chrono::NaiveDate` order the ingestion stage sorts by. -/
def dateLe (a b : NaiveDate) : Prop :=
  a.year < b.year ∨
    (a.year = b.year ∧ (a.month < b.month ∨ (a.month = b.month ∧ a.day ≤ b.day)))

instance (a b : NaiveDate) : Decidable (dateLe a b) :=
  inferInstanceAs (Decidable (a.year < b.year ∨
    (a.year = b.year ∧ (a.month < b.month ∨ (a.month = b.month ∧ a.day ≤ b.day)))))

instance : DecidableRel fun a b : Entry => dateLe a.date b.date := fun a b =>
  inferInstanceAs (Decidable (dateLe a.date b.date))

/-- The Aggregation Driver's input precondition: the record stream is sorted
by transaction date ascending. -/
def DateSorted (es : List Entry) : Prop :=
  es.Chain' fun a b => dateLe a.date b.date

instance (es : List Entry) : Decidable (DateSorted es) :=
  inferInstanceAs (Decidable (es.Chain' fun a b : Entry => dateLe a.date b.date))

/-- Sum of the bucket counts of one emitted YearlyReport: how many routed
samples are visible in it. -/
def reportSampleCount (r : ProcessedYearEntries) : Nat :=
  (r.postcodes.map fun p =>
    (p.2.map fun pe =>
      (pe.buckets.map fun t => (t.2.map fun a => a.2.count).sum).sum).sum).sum

/-- A concrete transaction date inside year `y`. -/
def sampleDate (y : Int) : NaiveDate :=
  { year := y, month := 3, day := 15 }

/-- A concrete valid record with the given year, postcode and price. -/
def sampleEntry (y : Int) (pc : String) (price : Int) : Entry :=
  { price := price
    date := sampleDate y
    address := "1, HIGH STREET, LONDON"
    postcode := pc
    property_type := .Flat
    property_age := .Old
    duration := .Leasehold }

/-! ### Lemmas about the Price Bucket Builder -/

theorem wrap32_eq_self (x : Int) (h1 : -2147483648 ≤ x) (h2 : x < 2147483648) :
    wrap32 x = x := by
  unfold wrap32
  rw [Int.emod_eq_of_lt (by omega) (by omega)]
  omega

theorem roundF32_eq_self (x : Int) (h : x.natAbs ≤ 16777216) : roundF32 x = x := by
  unfold roundF32
  simp only []
  rw [if_pos h]

/-- The builder's median computation succeeds on every non-empty price list
(both index accesses are in range). -/
theorem find_median_isSome (l : List Int) (h : l ≠ []) :
    (find_median l).isSome := by
  have hlen : 0 < l.length := List.length_pos.mpr h
  unfold find_median
  by_cases he : l.length ≥ 2 ∧ l.length % 2 = 0
  · have h2 : l.length / 2 < l.length := Nat.div_lt_self hlen (by omega)
    have h1 : l.length / 2 - 1 < l.length := by omega
    rw [if_pos he, List.get?_eq_get h1, List.get?_eq_get h2]
    rfl
  · have h2 : l.length / 2 < l.length := Nat.div_lt_self hlen (by omega)
    rw [if_neg he, List.get?_eq_get h2]
    rfl

/-- On a non-empty price list whose prices are bounded by 2^23 in magnitude,
the `i32` sum of the two middle prices does not wrap and the `f32` casts are
exact, so the source's median coincides with the exact statistical median. -/
theorem find_median_eq_specMedian_of_bounded (l : List Int) (h : l ≠ [])
    (hb : ∀ x ∈ l, x.natAbs ≤ 8388608) :
    find_median l = some (specMedian l) := by
  have hlen : 0 < l.length := List.length_pos.mpr h
  unfold find_median specMedian
  by_cases he : l.length ≥ 2 ∧ l.length % 2 = 0
  · have h2 : l.length / 2 < l.length := Nat.div_lt_self hlen (by omega)
    have h1 : l.length / 2 - 1 < l.length := by omega
    rw [if_pos he, if_pos ⟨he.2, he.1⟩]
    rw [List.get?_eq_get h1, List.get?_eq_get h2]
    have ha := hb _ (l.get_mem _ h1)
    have hbb := hb _ (l.get_mem _ h2)
    have hw : wrap32 (l.get ⟨l.length / 2 - 1, h1⟩ + l.get ⟨l.length / 2, h2⟩)
        = l.get ⟨l.length / 2 - 1, h1⟩ + l.get ⟨l.length / 2, h2⟩ :=
      wrap32_eq_self _ (by omega) (by omega)
    have hr : roundF32 (l.get ⟨l.length / 2 - 1, h1⟩ + l.get ⟨l.length / 2, h2⟩)
        = l.get ⟨l.length / 2 - 1, h1⟩ + l.get ⟨l.length / 2, h2⟩ :=
      roundF32_eq_self _ (by omega)
    simp only [List.get_eq_getElem] at hw hr
    simp [hw, hr, List.getD_eq_getElem, h1, h2, List.get_eq_getElem,
      Int.cast_add]
  · have h2 : l.length / 2 < l.length := Nat.div_lt_self hlen (by omega)
    rw [if_neg he, if_neg (fun hx => he ⟨hx.2, hx.1⟩)]
    rw [List.get?_eq_get h2]
    have ha := hb _ (l.get_mem _ h2)
    have hr : roundF32 (l.get ⟨l.length / 2, h2⟩) = l.get ⟨l.length / 2, h2⟩ :=
      roundF32_eq_self _ (by omega)
    simp only [List.get_eq_getElem] at hr
    simp [hr, List.getD_eq_getElem, h2, List.get_eq_getElem]

theorem sortPrices_length (l : List Int) : (sortPrices l).length = l.length :=
  List.length_insertionSort _ l

theorem sortPrices_perm (l : List Int) : (sortPrices l).Perm l :=
  List.perm_insertionSort _ l

theorem sortPrices_ne_nil (l : List Int) (h : l ≠ []) : sortPrices l ≠ [] := by
  intro hx
  apply h
  have := sortPrices_length l
  rw [hx] at this
  exact List.length_eq_zero.mp this.symm

/-- Whenever `find_median` returns a value on the sorted full price list, the
builder returns the bucket assembled from the full sample list with exactly
that median value. -/
theorem to_price_bucket_eq (samples : List Property) (m : ℚ)
    (hm : find_median (sortPrices (samples.map Property.price)) = some m) :
    to_price_bucket samples =
      some
        { count := samples.length
          median := m
          range := (((sortPrices (samples.map Property.price)).min?).getD 0,
                    ((sortPrices (samples.map Property.price)).max?).getD 0)
          properties := samples.filter fun p =>
            decide (p.price ≥ 300000) && decide (p.price ≤ 800000) } := by
  simp only [to_price_bucket]
  rw [hm]
  simp [sortPrices_length]

/-! ### The bucket computation never fails inside the driver: every sample
list stored in the accumulator is non-empty. -/

theorem mapOpt_isSome (f : α → Option β) (l : List α)
    (h : ∀ a ∈ l, (f a).isSome) : (mapOpt f l).isSome := by
  induction l with
  | nil => simp [mapOpt]
  | cons a rest ih =>
    obtain ⟨b, hb⟩ := Option.isSome_iff_exists.mp (h a (by simp))
    obtain ⟨bs, hbs⟩ :=
      Option.isSome_iff_exists.mp (ih fun x hx => h x (by simp [hx]))
    simp [mapOpt, hb, hbs]

/-- All sample lists of an age-level map are non-empty. -/
def AgesOk (m : List (PropertyAge × List Property)) : Prop :=
  ∀ a ∈ m, a.2 ≠ []

/-- All sample lists of a type-level map are non-empty. -/
def TypesOk (m : List (PropertyType × List (PropertyAge × List Property))) : Prop :=
  ∀ t ∈ m, AgesOk t.2

/-- All sample lists of the accumulator are non-empty. -/
def AccOk (m : List (String × YearEntry)) : Prop :=
  ∀ p ∈ m, TypesOk p.2.properties

theorem pushAge_ok (pa : PropertyAge) (p : Property)
    (m : List (PropertyAge × List Property)) (h : AgesOk m) :
    AgesOk (pushAge pa p m) := by
  induction m with
  | nil =>
    intro a ha
    simp [pushAge] at ha
    simp [ha]
  | cons x rest ih =>
    obtain ⟨a0, ps0⟩ := x
    by_cases hx : a0 = pa
    · intro a ha
      rw [pushAge, if_pos hx] at ha
      rcases List.mem_cons.mp ha with h1 | h1
      · simp [h1]
      · exact h a (List.mem_cons_of_mem _ h1)
    · intro a ha
      rw [pushAge, if_neg hx] at ha
      rcases List.mem_cons.mp ha with h1 | h1
      · subst h1
        exact h _ (List.mem_cons_self _ _)
      · exact ih (fun y hy => h y (List.mem_cons_of_mem _ hy)) a h1

theorem pushType_ok (pt : PropertyType) (pa : PropertyAge) (p : Property)
    (m : List (PropertyType × List (PropertyAge × List Property))) (h : TypesOk m) :
    TypesOk (pushType pt pa p m) := by
  induction m with
  | nil =>
    intro t ht
    simp [pushType] at ht
    subst ht
    exact pushAge_ok pa p [] (by intro a ha; simp at ha)
  | cons x rest ih =>
    obtain ⟨t0, am0⟩ := x
    by_cases hx : t0 = pt
    · intro t ht
      rw [pushType, if_pos hx] at ht
      rcases List.mem_cons.mp ht with h1 | h1
      · subst h1
        exact pushAge_ok pa p am0 (h _ (List.mem_cons_self _ _))
      · exact h t (List.mem_cons_of_mem _ h1)
    · intro t ht
      rw [pushType, if_neg hx] at ht
      rcases List.mem_cons.mp ht with h1 | h1
      · subst h1
        exact h _ (List.mem_cons_self _ _)
      · exact ih (fun y hy => h y (List.mem_cons_of_mem _ hy)) t h1

theorem route_ok (e : Entry) (m : List (String × YearEntry)) (h : AccOk m) :
    AccOk (route e m) := by
  induction m with
  | nil =>
    intro q hq
    simp [route] at hq
    subst hq
    exact pushType_ok _ _ _ [] (by intro t ht; simp at ht)
  | cons x rest ih =>
    obtain ⟨pc0, ye0⟩ := x
    by_cases hx : pc0 = e.postcode
    · intro q hq
      rw [route, if_pos hx] at hq
      rcases List.mem_cons.mp hq with h1 | h1
      · subst h1
        exact pushType_ok _ _ _ ye0.properties (h _ (List.mem_cons_self _ _))
      · exact h q (List.mem_cons_of_mem _ h1)
    · intro q hq
      rw [route, if_neg hx] at hq
      rcases List.mem_cons.mp hq with h1 | h1
      · subst h1
        exact h _ (List.mem_cons_self _ _)
      · exact ih (fun y hy => h y (List.mem_cons_of_mem _ hy)) q h1

theorem mapOf_ok (es : List Entry) : AccOk (mapOf es) := by
  have hgen : ∀ (es : List Entry) (m : List (String × YearEntry)), AccOk m →
      AccOk (es.foldl (fun m e => route e m) m) := by
    intro es
    induction es with
    | nil => intro m hm; exact hm
    | cons e rest ih =>
      intro m hm
      exact ih _ (route_ok e m hm)
  exact hgen es [] (by intro q hq; simp at hq)

theorem to_price_bucket_isSome (samples : List Property) (h : samples ≠ []) :
    (to_price_bucket samples).isSome := by
  have hmap : samples.map Property.price ≠ [] := by
    intro hx
    exact h (List.map_eq_nil_iff.mp hx)
  simp only [to_price_bucket]
  rw [Option.isSome_map']
  exact find_median_isSome _ (sortPrices_ne_nil _ hmap)

theorem process_year_entry_isSome (ye : YearEntry) (h : TypesOk ye.properties) :
    (process_year_entry ye).isSome := by
  unfold process_year_entry
  rw [Option.isSome_map']
  apply mapOpt_isSome
  intro t ht
  rw [Option.isSome_map']
  apply mapOpt_isSome
  intro a ha
  rw [Option.isSome_map']
  exact to_price_bucket_isSome a.2 (h t ht a ha)

theorem processFlush_isSome (year : Int) (acc : List Entry) :
    (processFlush year acc).isSome := by
  unfold processFlush
  rw [Option.isSome_map']
  apply mapOpt_isSome
  intro p hp
  rw [Option.isSome_map']
  exact process_year_entry_isSome p.2 (mapOf_ok acc p hp)

theorem emittedReports_isSome (es : List Entry) (h : es ≠ []) :
    (emittedReports es).isSome := by
  obtain ⟨e, rest, rfl⟩ := List.exists_cons_of_ne_nil h
  unfold emittedReports aggregate
  rw [Option.some_bind]
  apply mapOpt_isSome
  intro p _
  exact processFlush_isSome p.1 p.2

/-! ### The write sequence forms one comma-intercalated JSON array -/

theorem commaSep_cons (s : String) (ss : List String) (h : ss ≠ []) :
    commaSep (s :: ss) = s ++ "," ++ commaSep ss := by
  cases ss with
  | nil => exact absurd rfl h
  | cons t ts => rfl

theorem flushWrites_append (reps : List ProcessedYearEntries) (t : String) :
    flushWrites reps ++ t =
      commaSep (reps.map (fun r => renderJson (reportJson r)) ++ [t]) := by
  induction reps with
  | nil => simp [flushWrites, commaSep]
  | cons r rest ih =>
    rw [List.map_cons, List.cons_append,
      commaSep_cons _ _ (by simp), ← ih, flushWrites]
    rw [String.append_assoc, String.append_assoc]

theorem renderJson_arr (elems : List Json) :
    renderJson (Json.arr elems) = "[" ++ commaSep (elems.map renderJson) ++ "]" := by
  rw [renderJson]
  rw [show (fun e : { x // x ∈ elems } => renderJson e.1) =
    fun e : { x // x ∈ elems } => renderJson e.1 from rfl]
  rw [List.attach_map_val elems renderJson]

/-! ### The sorted copy's min and max are the min and max of the full price
list -/

instance : Std.Antisymm fun x1 x2 : Int => x1 ≤ x2 where
  antisymm h1 h2 := le_antisymm h1 h2

theorem sorted_min_spec (l : List Int) (h : l ≠ []) :
    ((sortPrices l).min?.getD 0) ∈ l ∧ ∀ x ∈ l, ((sortPrices l).min?.getD 0) ≤ x := by
  have hs : sortPrices l ≠ [] := sortPrices_ne_nil l h
  cases hm : (sortPrices l).min? with
  | none => exact absurd (List.min?_eq_none_iff.mp hm) hs
  | some a =>
    have hsp := (List.min?_eq_some_iff (fun a => le_refl a) min_choice
      (fun _ _ _ => le_min_iff)).mp hm
    have hperm := sortPrices_perm l
    constructor
    · simpa using hperm.mem_iff.mp hsp.1
    · intro x hx
      simpa using hsp.2 x (hperm.mem_iff.mpr hx)

theorem sorted_max_spec (l : List Int) (h : l ≠ []) :
    ((sortPrices l).max?.getD 0) ∈ l ∧ ∀ x ∈ l, x ≤ ((sortPrices l).max?.getD 0) := by
  have hs : sortPrices l ≠ [] := sortPrices_ne_nil l h
  cases hm : (sortPrices l).max? with
  | none =>
    have : sortPrices l = [] := by
      cases hl : sortPrices l with
      | nil => rfl
      | cons x xs => rw [hl] at hm; simp [List.max?] at hm
    exact absurd this hs
  | some a =>
    have hsp := (List.max?_eq_some_iff (fun a => le_refl a) max_choice
      (fun _ _ _ => max_le_iff)).mp hm
    have hperm := sortPrices_perm l
    constructor
    · simpa using hperm.mem_iff.mp hsp.1
    · intro x hx
      simpa using hsp.2 x (hperm.mem_iff.mpr hx)

/-! ### The accumulator invariant of the driver loop -/

theorem driverLoop_inv (rest : List Entry) (year : Int) (acc : List Entry)
    (hacc : ∀ e ∈ acc, e.date.year = year) :
    ∀ p ∈ (driverLoop year acc rest).trace ++ (driverLoop year acc rest).flushes,
      ∀ e ∈ p.2, e.date.year = p.1 := by
  induction rest generalizing year acc with
  | nil =>
    intro p hp
    simp [driverLoop] at hp
  | cons e rest ih =>
    by_cases hc : e.date.year ≠ year ∨ rest = []
    · rw [driverLoop, if_pos hc]
      intro p hp e' he'
      simp only [List.cons_append, List.mem_cons, List.mem_append] at hp
      rcases hp with h1 | h1 | h1
      · subst h1
        simp at he'
        simp [he']
      · have := ih e.date.year [e] (by intro x hx; simp at hx; simp [hx])
        exact this p (by simp [h1]) e' he'
      · rcases h1 with h2 | h2
        · subst h2
          exact hacc e' he'
        · have := ih e.date.year [e] (by intro x hx; simp at hx; simp [hx])
          exact this p (by simp [h2]) e' he'
    · rw [driverLoop, if_neg hc]
      push_neg at hc
      intro p hp e' he'
      have hacc' : ∀ x ∈ acc ++ [e], x.date.year = year := by
        intro x hx
        rcases List.mem_append.mp hx with h1 | h1
        · exact hacc x h1
        · simp at h1
          simp [h1, hc.1]
      simp only [List.cons_append, List.mem_cons, List.mem_append] at hp
      rcases hp with h1 | h1 | h1
      · subst h1
        exact hacc' e' he'
      · exact ih year (acc ++ [e]) hacc' p (by simp [h1]) e' he'
      · exact ih year (acc ++ [e]) hacc' p (by simp [h1]) e' he'

/-! ### Concrete record streams used by the claim theorems -/

/-- A date-sorted stream whose final record opens a new year. -/
def streamTwoYears : List Entry :=
  [sampleEntry 2021 "SE1" 100000, sampleEntry 2022 "E14" 500000]

/-- A date-sorted single-year stream: two records, same postcode, same
property type and age. -/
def streamOneYear : List Entry :=
  [sampleEntry 2021 "SE1" 100000, sampleEntry 2021 "SE1" 300000]

/-- A single-record stream. -/
def streamSingle : List Entry :=
  [sampleEntry 2021 "SE1" 100000]

/-- The even-length price-list example of the spec, as a sample list. -/
def evenSamples : List Property :=
  [{ address := "a", price := 100 }, { address := "b", price := 200 },
   { address := "c", price := 300 }, { address := "d", price := 400 }]

theorem dateSorted_streamTwoYears : DateSorted streamTwoYears := by
  norm_num [DateSorted, streamTwoYears, sampleEntry, sampleDate,
    List.chain'_cons, dateLe]

theorem dateSorted_streamOneYear : DateSorted streamOneYear := by
  norm_num [DateSorted, streamOneYear, sampleEntry, sampleDate,
    List.chain'_cons, dateLe]

/-! ### Claims -/

/-- C1: the claim says that for every non-empty date-sorted stream the final
record's year is always flushed and emitted as a YearlyReport.  The code
violates this: on the date-sorted stream [year 2021, year 2022] the loop
flushes (on seeing the last record, before routing it) only the 2021 report;
year 2022 is never flushed, so the emitted YearlyReports carry year 2021
only, and the final record's data survives only in the raw accumulator dump
of line 261 (whose sample lists are skipped by serialisation). -/
theorem C1_final_year_not_emitted :
    DateSorted streamTwoYears ∧
    (streamTwoYears.map fun e => e.date.year) = [2021, 2022] ∧
    (emittedReports streamTwoYears).map (fun reps => reps.map ProcessedYearEntries.year)
      = some [2021] :=
  ⟨dateSorted_streamTwoYears, by decide, by decide⟩

/-- C2: the claim says every record of a non-empty date-sorted stream appears
in exactly one emitted YearlyReport.  The code violates it for the last
record: on the single-year stream [2021, 2021] the flush triggered by the
last record happens before that record is routed, so exactly one YearlyReport
is emitted and it contains one sample — the second record contributes to no
emitted report at all. -/
theorem C2_last_record_in_no_report :
    DateSorted streamOneYear ∧
    streamOneYear.length = 2 ∧
    (emittedReports streamOneYear).map
      (fun reps => (reps.length, (reps.map reportSampleCount).sum)) = some (1, 1) :=
  ⟨dateSorted_streamOneYear, by decide, by decide⟩

/-- C3: the claim says the Price Bucket Builder degrades gracefully on an
empty sample list, returning count 0, median 0, range (0,0) and an empty
retained subset.  In the code `find_median` evaluates `prices[0]` on the
empty price vector and panics (the `none` of the model), so no bucket is
produced at all. -/
theorem C3_empty_bucket_panics :
    to_price_bucket ([] : List Property) = none ∧
    find_median ([] : List Int) = none :=
  ⟨rfl, rfl⟩

/-- C4 counterexample: the claim quantifies over every non-empty price list,
but the source computes the median through a lossy `as f32` cast.  On the
reachable one-element list with price 16777217 = 2^24 + 1 (a valid `i32`
that passes every upstream filter) the cast rounds to 16777216 (ties to
even), so the bucket median is 16777216 while the statistical median is
16777217. -/
theorem C4_large_price_median_rounds :
    ∃ b, to_price_bucket [{ address := "a", price := 16777217 }] = some b ∧
      b.median = 16777216 ∧
      specMedian (sortPrices [(16777217 : Int)]) = 16777217 ∧
      b.median ≠ specMedian (sortPrices [(16777217 : Int)]) := by
  have hr : roundF32 16777217 = 16777216 := by norm_num [roundF32]
  have hm : find_median (sortPrices [(16777217 : Int)])
      = some ((16777216 : Int) : ℚ) := by
    rw [show sortPrices [(16777217 : Int)] = [16777217] from rfl]
    unfold find_median
    norm_num [hr]
  refine ⟨_, to_price_bucket_eq [{ address := "a", price := 16777217 }] _ hm,
    by push_cast; ring, ?_, ?_⟩
  · rw [show sortPrices [(16777217 : Int)] = [16777217] from rfl]
    norm_num [specMedian]
  · rw [show sortPrices [(16777217 : Int)] = [16777217] from rfl]
    norm_num [specMedian]

/-- C4 as amended: for every non-empty sample list whose prices are at most
2^23 in magnitude (so the `i32` middle-price sum cannot wrap and every value
the source feeds through `f32` is exactly representable), the bucket's median
equals the standard statistical median of the sorted prices — the mean of the
two middle elements (indices n/2 - 1 and n/2) for even n ≥ 2, the element at
index n/2 for odd n. -/
theorem C4_median_statistical_for_bounded_prices (samples : List Property)
    (h : samples ≠ []) (hb : ∀ p ∈ samples, p.price.natAbs ≤ 8388608) :
    ∃ b, to_price_bucket samples = some b ∧
      b.median = specMedian (sortPrices (samples.map Property.price)) := by
  have hmap : samples.map Property.price ≠ [] := by
    intro hx
    exact h (List.map_eq_nil_iff.mp hx)
  have hbl : ∀ x ∈ sortPrices (samples.map Property.price), x.natAbs ≤ 8388608 := by
    intro x hx
    obtain ⟨p, hp, rfl⟩ := List.mem_map.mp ((sortPrices_perm _).mem_iff.mp hx)
    exact hb p hp
  have hm := find_median_eq_specMedian_of_bounded _
    (sortPrices_ne_nil _ hmap) hbl
  exact ⟨_, to_price_bucket_eq samples _ hm, rfl⟩

/-- C4 witness: the spec's even example [100, 200, 300, 400] (all prices far
below 2^23) produces a bucket whose median is 250; the odd example
[100, 200, 300] has median 200. -/
theorem C4_median_witness :
    evenSamples ≠ [] ∧
    (∀ p ∈ evenSamples, p.price.natAbs ≤ 8388608) ∧
    (∃ b, to_price_bucket evenSamples = some b ∧
      b.median = specMedian (sortPrices (evenSamples.map Property.price))) ∧
    specMedian (sortPrices (evenSamples.map Property.price)) = 250 ∧
    specMedian (sortPrices [100, 200, 300]) = 200 :=
  ⟨by decide, by decide,
   C4_median_statistical_for_bounded_prices evenSamples (by decide) (by decide),
   by norm_num [evenSamples, specMedian, sortPrices, List.insertionSort,
     List.orderedInsert],
   by norm_num [specMedian, sortPrices, List.insertionSort, List.orderedInsert]⟩

/-- C5 counterexample: the claim says the output is one top-level array of
yearly objects.  On the single-record stream the written array has two
elements and the final one — the raw accumulator dump of line 261, an object
keyed by postcode — is not a yearly object (it has neither a year nor a
postcodes field at top level). -/
theorem C5_last_element_not_yearly :
    (outputElems streamSingle).map (fun els => els.map isYearlyObj)
      = some [true, false] := by
  decide

/-- C5 as amended: for every non-empty stream the complete byte output is the
rendering of a single JSON array — the element separator appears only between
elements, never before the closing bracket — but its elements are the flushed
yearly objects followed by one raw accumulator-dump object. -/
theorem C5_output_single_json_array (es : List Entry) (h : es ≠ []) :
    ∃ els, outputElems es = some els ∧
      outputString es = some (renderJson (Json.arr els)) := by
  obtain ⟨e, rest, rfl⟩ := List.exists_cons_of_ne_nil h
  have hflush : (mapOpt (fun p => processFlush p.1 p.2)
      (driverLoop e.date.year [] (e :: rest)).flushes).isSome := by
    apply mapOpt_isSome
    intro p _
    exact processFlush_isSome p.1 p.2
  obtain ⟨reps, hreps⟩ := Option.isSome_iff_exists.mp hflush
  refine ⟨reps.map reportJson ++
    [rawDumpJson (mapOf (driverLoop e.date.year [] (e :: rest)).finalAcc)], ?_, ?_⟩
  · unfold outputElems aggregate
    rw [Option.some_bind, hreps]
    rfl
  · unfold outputString aggregate
    rw [Option.some_bind, hreps]
    simp only [Option.map_some']
    congr 1
    rw [renderJson_arr, List.map_append, List.map_map]
    rw [String.append_assoc "[" (flushWrites reps)]
    rw [flushWrites_append]
    rfl

/-- C5 witness: the amended statement applied to the concrete single-record
stream. -/
theorem C5_output_witness :
    streamSingle ≠ [] ∧
    ∃ els, outputElems streamSingle = some els ∧
      outputString streamSingle = some (renderJson (Json.arr els)) :=
  ⟨by decide, C5_output_single_json_array streamSingle (by decide)⟩

/-- C6: the claim says the number of emitted YearlyReports equals the number
of distinct years of the stream.  The code violates it whenever the last
record opens a new year: the date-sorted stream [2021, 2022] has two distinct
years but only one YearlyReport (year 2021) is emitted. -/
theorem C6_report_count_mismatch :
    DateSorted streamTwoYears ∧
    (streamTwoYears.map fun e => e.date.year).dedup.length = 2 ∧
    (emittedReports streamTwoYears).map List.length = some 1 :=
  ⟨dateSorted_streamTwoYears, by decide, by decide⟩

/-- C7 counterexample: the claim quantifies over every sample list, but on
the empty list the builder does not return a bucket at all (it panics inside
find_median), so there is no retained subset. -/
theorem C7_empty_list_no_bucket :
    ¬ ∃ b, to_price_bucket ([] : List Property) = some b := by
  rintro ⟨b, hb⟩
  rw [show to_price_bucket ([] : List Property) = none from rfl] at hb
  exact Option.noConfusion hb

/-- C7 as amended: for every non-empty sample list, the bucket's retained
subset is exactly the samples with price in the inclusive band
300000..800000, while count, median and range are computed from the full
sample list — count is the full length, the median is the value the source's
median routine computes on all the sorted prices (the band filter never
touches it), and the range endpoints are the true min and max over all
prices. -/
theorem C7_bucket_from_full_samples (samples : List Property)
    (h : samples ≠ []) :
    ∃ b, to_price_bucket samples = some b ∧
      b.properties = (samples.filter fun p =>
        decide (p.price ≥ 300000) && decide (p.price ≤ 800000)) ∧
      b.count = samples.length ∧
      find_median (sortPrices (samples.map Property.price)) = some b.median ∧
      b.range.1 ∈ samples.map Property.price ∧
      b.range.2 ∈ samples.map Property.price ∧
      ∀ x ∈ samples.map Property.price, b.range.1 ≤ x ∧ x ≤ b.range.2 := by
  have hmap : samples.map Property.price ≠ [] := by
    intro hx
    exact h (List.map_eq_nil_iff.mp hx)
  obtain ⟨m, hm⟩ := Option.isSome_iff_exists.mp
    (find_median_isSome _ (sortPrices_ne_nil _ hmap))
  have hmin := sorted_min_spec (samples.map Property.price) hmap
  have hmax := sorted_max_spec (samples.map Property.price) hmap
  refine ⟨_, to_price_bucket_eq samples m hm, rfl, rfl, hm, hmin.1, hmax.1, ?_⟩
  intro x hx
  exact ⟨hmin.2 x hx, hmax.2 x hx⟩

/-- C7 witness: the amended statement applied to the concrete sample list
[100, 200, 300, 400]. -/
theorem C7_bucket_witness :
    evenSamples ≠ [] ∧
    (∃ b, to_price_bucket evenSamples = some b ∧
      b.properties = (evenSamples.filter fun p =>
        decide (p.price ≥ 300000) && decide (p.price ≤ 800000)) ∧
      b.count = evenSamples.length ∧
      find_median (sortPrices (evenSamples.map Property.price)) = some b.median ∧
      b.range.1 ∈ evenSamples.map Property.price ∧
      b.range.2 ∈ evenSamples.map Property.price ∧
      ∀ x ∈ evenSamples.map Property.price, b.range.1 ≤ x ∧ x ≤ b.range.2) :=
  ⟨by decide, C7_bucket_from_full_samples evenSamples (by decide)⟩

/-- C8: along the driver loop every accumulator state — each state reached
after routing a record, and each accumulator content at flush time — holds
only records whose transaction year equals the current year variable; the
records held in the accumulator are exactly those routed since the last
reset, and the nested map is mapOf of them. -/
theorem C8_accumulator_year_invariant (es : List Entry) (hsorted : DateSorted es)
    (r : DriverResult) (hr : aggregate es = some r) :
    ∀ p ∈ r.trace ++ r.flushes, ∀ e ∈ p.2, e.date.year = p.1 := by
  cases es with
  | nil => exact absurd hr (by simp [aggregate])
  | cons e rest =>
    have hd : driverLoop e.date.year [] (e :: rest) = r := Option.some.inj hr
    subst hd
    exact driverLoop_inv (e :: rest) e.date.year [] (by intro x hx; simp at hx)

/-- C8 witness: the invariant applied to the concrete date-sorted two-year
stream. -/
theorem C8_accumulator_witness :
    DateSorted streamTwoYears ∧
    ∀ p ∈ (driverLoop 2021 [] streamTwoYears).trace ++
        (driverLoop 2021 [] streamTwoYears).flushes,
      ∀ e ∈ p.2, e.date.year = p.1 :=
  ⟨dateSorted_streamTwoYears,
   C8_accumulator_year_invariant streamTwoYears dateSorted_streamTwoYears
     (driverLoop 2021 [] streamTwoYears) rfl⟩

/-- C9 counterexample: the claim says every empty segment is skipped when
composing the address.  The code skips only PAON and SAON; street and city
are appended unconditionally, so PAON "1" with empty SAON, empty street and
city "LONDON" composes to "1, , LONDON" instead of the skip-empty join
"1, LONDON". -/
theorem C9_empty_street_not_skipped :
    composeAddress "1" "" "" "LONDON" = "1, , LONDON" ∧
    specAddress "1" "" "" "LONDON" = "1, LONDON" ∧
    composeAddress "1" "" "" "LONDON" ≠ specAddress "1" "" "" "LONDON" :=
  ⟨by decide, by decide, by decide⟩

/-- C9 as amended: whenever the street and city fields are non-empty, the
composed address equals the PAON, SAON, street and city joined with ", "
with empty segments skipped (only the PAON and SAON positions can be empty,
and they are the ones the code conditionally skips). -/
theorem C9_address_join (paon saon street city : String)
    (hst : street ≠ "") (hc : city ≠ "") :
    composeAddress paon saon street city = specAddress paon saon street city := by
  unfold composeAddress specAddress
  by_cases hp : paon = "" <;> by_cases hq : saon = "" <;>
    simp [hp, hq, hst, hc, joinComma, String.append_assoc]

/-- C9 witness: the amended statement applied to concrete fields. -/
theorem C9_address_witness :
    ("HIGH STREET" : String) ≠ "" ∧ ("LONDON" : String) ≠ "" ∧
    composeAddress "12" "FLAT 3" "HIGH STREET" "LONDON" =
      specAddress "12" "FLAT 3" "HIGH STREET" "LONDON" :=
  ⟨by decide, by decide,
   C9_address_join "12" "FLAT 3" "HIGH STREET" "LONDON" (by decide) (by decide)⟩

/-- C10: the builder leaves the sample vector behind its mutable reference
unchanged — the state-passing translation returns the input list itself, and
its bucket is the one computed by the by-value model (prices are sorted on
the private copy only). -/
theorem C10_builder_preserves_input (properties : List Property) :
    (to_price_bucket_mut properties).2 = properties ∧
    (to_price_bucket_mut properties).1 = to_price_bucket properties :=
  ⟨rfl, rfl⟩

end HomeUK
